import Mathlib

/-!
Verification development for the nomen indexing and resolution core.

The definitions below are a shallow embedding of the Rust sources:

* `src/db/mod.rs` — the persistence layer: the migration list, `initialize`,
  `insert_namespace`, `insert_records_event`, `next_index_height`,
  `name_records`, the `name_records_vw` view, and `namespace::details` with
  its `blockchain_data` helper.
* `src/config/cfg.rs` — `Config::starting_block_height` and
  `Config::server_indexer_delay`.
* `src/subcommands/index_blockchain.rs` — the OP_RETURN scan and
  `parse_gun_output`.
* `src/subcommands/name/mod.rs` — the `op_return` payload encoder.
* `src/subcommands/server.rs` — the `WebError` HTTP error wrapper, the
  `indexer` supervisor loop, and the `explore_nsid` handler with the
  `NsidTemplate` conversion.

SQL text under `src/db/queries/*.sql` is not part of the sources; where a
definition depends on such a file its doc comment starts with
"Modelled from the spec:" and names the missing file.  Database tables are
lists of typed rows; SQL `NULL` parameters are `Option.none`; the JSON
`records` column is carried in already-decoded form as an association list
(the JSON codec is not modelled, `[]` stands for the encoded empty object).
-/

namespace Nomen

/-- A value bound to a positional SQL parameter (sqlx `bind`): either a
text value or an integer value. -/
inductive SqlValue
  | s (v : String)
  | i (v : Int)
deriving DecidableEq, Repr

/-- A row of the `blockchain` table:
`CREATE TABLE blockchain (nsid PRIMARY KEY, blockhash, txid, vout, height)`. -/
structure BlockchainRow where
  nsid : String
  blockhash : String
  txid : String
  vout : Nat
  height : Nat
deriving DecidableEq, Repr

/-- A row of the `name_nsid` table:
`CREATE TABLE name_nsid (name PRIMARY KEY, nsid, root, parent, pubkey)`. -/
structure NameNsidRow where
  name : String
  nsid : String
  root : String
  parent : Option String
  pubkey : String
deriving DecidableEq, Repr

/-- A row of the `create_events` table:
`CREATE TABLE create_events (nsid PRIMARY KEY, pubkey, created_at, event_id, name, children)`.
The `children` JSON column is carried decoded, as a list of
(name, pubkey) pairs. -/
structure CreateEventRow where
  nsid : String
  pubkey : String
  created_at : Nat
  event_id : String
  name : String
  children : List (String × String)
deriving DecidableEq, Repr

/-- A row of the `records_events` table:
`CREATE TABLE records_events (nsid, pubkey, created_at, event_id, name, records)`
with `CREATE UNIQUE INDEX records_events_unique_idx ON records_events(nsid, pubkey)`.
The `records` JSON column is carried decoded, as an association list. -/
structure RecordsRow where
  nsid : String
  pubkey : String
  created_at : Nat
  event_id : String
  name : String
  records : List (String × String)
deriving DecidableEq, Repr

/-- The relational store: one list of rows per table, in insertion order. -/
structure Db where
  blockchain : List BlockchainRow
  name_nsid : List NameNsidRow
  create_events : List CreateEventRow
  records_events : List RecordsRow
deriving DecidableEq, Repr

/-! ## Schema migrations (`src/db/mod.rs`, `MIGRATIONS` and `initialize`) -/

/-- The migration list from `src/db/mod.rs` (11 entries, in order). -/
def MIGRATIONS : List String :=
  [ "CREATE TABLE blockchain (nsid PRIMARY KEY, blockhash, txid, vout, height);"
  , "CREATE INDEX blockchain_height_dx ON blockchain(height);"
  , "CREATE TABLE name_nsid (name PRIMARY KEY, nsid, root, parent, pubkey);"
  , "CREATE INDEX name_nsid_nsid_idx ON name_nsid(nsid);"
  , "CREATE INDEX name_nsid_parent_idx ON name_nsid(parent);"
  , "CREATE TABLE create_events (nsid PRIMARY KEY, pubkey, created_at, event_id, name, children);"
  , "CREATE TABLE records_events (nsid, pubkey, created_at, event_id, name, records);"
  , "CREATE UNIQUE INDEX records_events_unique_idx ON records_events(nsid, pubkey)"
  , "CREATE INDEX records_events_created_at_idx ON records_events(created_at);"
  , "CREATE VIEW name_records_vw AS SELECT re.name, re.records, re.nsid FROM blockchain b JOIN name_nsid nn ON b.nsid = nn.root JOIN create_events ce ON b.nsid = ce.nsid JOIN records_events re on nn.nsid = re.nsid AND nn.pubkey = re.pubkey;"
  , "CREATE VIEW top_level_names_vw AS SELECT ce.name, ce.nsid FROM blockchain b JOIN name_nsid nn ON b.nsid = nn.nsid JOIN create_events ce ON b.nsid = ce.nsid"
  ]

/-- Migration-tracking state of a database file: the rows of the
`schema (version)` table and the migration statements executed so far,
in execution order. -/
structure DbFile where
  schema : List Nat
  applied : List String
deriving DecidableEq, Repr

/-- A freshly created (empty) database file. -/
def emptyDbFile : DbFile := ⟨[], []⟩

/-- `SELECT COALESCE(MAX(version) + 1, 0) FROM schema` from `initialize`
(`src/db/mod.rs`): `NULL` max (empty table) gives 0, otherwise max plus one. -/
def nextVersion (schema : List Nat) : Nat :=
  if schema.isEmpty then 0 else schema.foldr max 0 + 1

/-- The migration loop body of `initialize` (`src/db/mod.rs`): for each
`(idx, migration)` of the enumerated pending tail, execute the statement and
then run `INSERT INTO schema (version) VALUES (?)` bound to `idx` — the
tail-local index, not `version + idx`.  Each of the eleven migration
statements creates a distinct schema object (two tables, five indexes, two
views, …), so executing a statement whose text was already executed errors
in SQLite ("object already exists"); the `?` operator then aborts the run.
There is no enclosing transaction, so the effects of the statements already
executed in this run stay committed.  Returns the resulting state and
whether the run succeeded. -/
def runPending (st : DbFile) : List (Nat × String) → DbFile × Bool
  | [] => (st, true)
  | (idx, m) :: rest =>
    if m ∈ st.applied then (st, false)
    else runPending ⟨st.schema ++ [idx], st.applied ++ [m]⟩ rest

/-- `initialize` from `src/db/mod.rs`: read
`COALESCE(MAX(version) + 1, 0)` as `version`, then run the migration loop
over `MIGRATIONS[version..].enumerate()`. -/
def applyMigrations (st : DbFile) : DbFile × Bool :=
  runPending st (MIGRATIONS.drop (nextVersion st.schema)).enum

/-! ## `insert_namespace` (`src/db/mod.rs`) -/

/-- The SQL parameters bound by `insert_namespace` in `src/db/mod.rs`, in
bind order: `nsid`, `blockhash`, `txid`, `height as i64`.  The `vout`
argument of the Rust function appears in no `bind` call. -/
def insert_namespace_binds (nsid blockhash txid : String)
    (_vout height : Nat) : List SqlValue :=
  [SqlValue.s nsid, SqlValue.s blockhash, SqlValue.s txid, SqlValue.i height]

/-- Modelled from the spec: `src/db/queries/insert_namespace.sql` is not under
`src/`.  "Inserts if `nsid` absent; silently ignores if present (enforces I1)":
insert the row unless a row with the same `nsid` already exists. -/
def insert_namespace_spec (tbl : List BlockchainRow) (r : BlockchainRow) :
    List BlockchainRow :=
  if tbl.any (fun x => x.nsid == r.nsid) then tbl else tbl ++ [r]

/-! ## `insert_records_event` (`src/db/mod.rs`) -/

/-- Does a records row carry the given `(nsid, pubkey)` key? -/
def recordsKeyMatches (x : RecordsRow) (nsid pubkey : String) : Bool :=
  x.nsid == nsid && x.pubkey == pubkey

/-- The in-place conflict action of the records upsert: a stored row `x`
is replaced by the incoming row `r` exactly when it carries `r`'s
`(nsid, pubkey)` key and `r.created_at` strictly exceeds `x.created_at`. -/
def upsertRow (r x : RecordsRow) : RecordsRow :=
  if recordsKeyMatches x r.nsid r.pubkey && decide (r.created_at > x.created_at)
  then r else x

/-- Modelled from the spec: `src/db/queries/insert_records_event.sql` is not
under `src/`.  "Upsert keyed by `(nsid, pubkey)` — overwrites only when the
new `created_at` strictly exceeds the existing row's": on a key conflict the
conflicting row is updated in place by `upsertRow`; without a conflict the
row is appended.  (The Rust wrapper binds all six values, in column
order.) -/
def insert_records_event (tbl : List RecordsRow) (r : RecordsRow) :
    List RecordsRow :=
  if tbl.any (fun x => recordsKeyMatches x r.nsid r.pubkey) then
    tbl.map (upsertRow r)
  else tbl ++ [r]

/-- The stored row for a `(nsid, pubkey)` key: first match in row order. -/
def lookupRecords (tbl : List RecordsRow) (nsid pubkey : String) :
    Option RecordsRow :=
  tbl.find? (fun x => recordsKeyMatches x nsid pubkey)

/-- The per-key effect of the upsert on an existing row: keep the newer of
the stored row `a` and the incoming row `r`, the stored row winning ties. -/
def pickNewer (a r : RecordsRow) : RecordsRow :=
  if r.created_at > a.created_at then r else a

/-- The `records_events_unique_idx` invariant: no two rows share a
`(nsid, pubkey)` key. -/
def UniqueRecordsKeys (tbl : List RecordsRow) : Prop :=
  tbl.Pairwise (fun a b => ¬(a.nsid = b.nsid ∧ a.pubkey = b.pubkey))

/-! ## `next_index_height` (`src/db/mod.rs`) and genesis heights
(`src/config/cfg.rs`) -/

/-- `SELECT COALESCE(MAX(height), 0) + 1 FROM blockchain` from
`next_index_height` in `src/db/mod.rs`. -/
def next_index_height (bc : List BlockchainRow) : Nat :=
  (bc.map (fun r => r.height)).foldr max 0 + 1

/-- The Bitcoin networks recognised by the configuration
(`src/config/cfg.rs`, `src/config/cli.rs`). -/
inductive Network
  | bitcoin
  | testnet
  | signet
  | regtest
deriving DecidableEq, Repr

/-- `Config::starting_block_height` from `src/config/cfg.rs`. -/
def starting_block_height : Network → Nat
  | Network.bitcoin => 790500
  | Network.signet => 143500
  | _ => 0

/-- Modelled from the spec: the async blockchain indexer the server spawns
(`subcommands::index_blockchain(&config, &pool, 3, None)` in
`src/subcommands/server.rs`) is not under `src/`.  Per spec §4.3 the scan
starts from `next_index_height`, and per §6 the network genesis height is
"where the indexer starts if the store is empty". -/
def indexer_start_height (bc : List BlockchainRow) (net : Network) : Nat :=
  if bc.isEmpty then starting_block_height net else next_index_height bc

/-! ## The resolution view and `name_records` (`src/db/mod.rs`) -/

/-- The `name_records_vw` view from migration 9 in `src/db/mod.rs`:
`SELECT re.name, re.records, re.nsid FROM blockchain b`
`JOIN name_nsid nn ON b.nsid = nn.root`
`JOIN create_events ce ON b.nsid = ce.nsid`
`JOIN records_events re ON nn.nsid = re.nsid AND nn.pubkey = re.pubkey`. -/
def name_records_vw (db : Db) :
    List (String × List (String × String) × String) :=
  db.blockchain.flatMap (fun b =>
    (db.name_nsid.filter (fun nn => nn.root == b.nsid)).flatMap (fun nn =>
      (db.create_events.filter (fun ce => ce.nsid == b.nsid)).flatMap (fun _ce =>
        (db.records_events.filter
          (fun re => re.nsid == nn.nsid && re.pubkey == nn.pubkey)).map
          (fun re => (re.name, re.records, re.nsid)))))

/-- `name_records` from `src/db/mod.rs`:
`SELECT records from name_records_vw where name = ?`, `fetch_optional`
(first matching view row), the `records` JSON decoded into a map. -/
def name_records (db : Db) (name : String) :
    Option (List (String × String)) :=
  ((name_records_vw db).find? (fun row => row.1 == name)).map
    (fun row => row.2.1)

/-- The resolvable-set as claim C3 words it: a blockchain row, a create event
with the same `nsid`, and a records event matching that `nsid` and the create
event's `pubkey` — the triple join with no further conditions.  Stated from
the claim's words, to be compared with `name_records` over the source view. -/
def specTripleJoinHas (db : Db) (name : String) : Bool :=
  db.blockchain.any (fun b =>
    db.create_events.any (fun ce =>
      db.records_events.any (fun re =>
        ce.nsid == b.nsid && re.nsid == b.nsid && re.pubkey == ce.pubkey
          && re.name == name)))

/-! ## OP_RETURN encoding and the blockchain scan
(`src/subcommands/name/mod.rs`, `src/subcommands/index_blockchain.rs`) -/

/-- The transaction kinds of the `op_return` encoder
(`IndigoKind` in `src/subcommands/name/mod.rs`; the `util` module carrying
the enum is not under `src/`, byte values per spec §6: create 0x00, the
other kind 0x01). -/
inductive IndigoKind
  | create
  | update
deriving DecidableEq, Repr

/-- The `u8` conversion of `IndigoKind`. -/
def IndigoKind.toByte : IndigoKind → Nat
  | IndigoKind.create => 0
  | IndigoKind.update => 1

/-- `op_return` from `src/subcommands/name/mod.rs`: the payload is
`b"IND\x00"`, one kind byte, then the 20-byte nsid.
(0x49 0x4E 0x44 is ASCII "IND".) -/
def op_return (nsid : List Nat) (kind : IndigoKind) : List Nat :=
  [0x49, 0x4E, 0x44, 0x00] ++ [kind.toByte] ++ nsid

/-- The OP_RETURN payload built by `create_new_tx` in
`src/subcommands/create_new_tx.rs`: `"gun\x00\x00"` then the namespace id.
(0x67 0x75 0x6E is ASCII "gun".) -/
def gun_op_return (nsid : List Nat) : List Nat :=
  [0x67, 0x75, 0x6E, 0x00, 0x00] ++ nsid

/-- `parse_gun_output` from `src/subcommands/index_blockchain.rs`: the two
bytes after the `gun` tag must be 0, 0; the rest is returned. -/
def parse_gun_output (bytes : List Nat) : Option (List Nat) :=
  match bytes with
  | 0 :: 0 :: rest => some rest
  | _ => none

/-- The payload test of the blockchain scan in
`src/subcommands/index_blockchain.rs`: the OP_RETURN data is accepted only
when it starts with `b"gun"`, and is then handed to `parse_gun_output`. -/
def indexer_decode (b : List Nat) : Option (List Nat) :=
  if b.take 3 = [0x67, 0x75, 0x6E] then parse_gun_output (b.drop 3) else none

/-- The spec's OP_RETURN payload (§6, bit-exact): magic `"NOM"`, version
0x00, one kind byte, then the 20-byte nsid.  Stated from the spec's words,
to be compared with the source encoder and scan.
(0x4E 0x4F 0x4D is ASCII "NOM".) -/
def spec_op_return (nsid : List Nat) (kind : IndigoKind) : List Nat :=
  [0x4E, 0x4F, 0x4D, 0x00] ++ [kind.toByte] ++ nsid

/-! ## `namespace::details` (`src/db/mod.rs`) -/

/-- `NamespaceDetails` from `src/db/mod.rs`. -/
structure NamespaceDetails where
  name : Option String
  records : List (String × String)
  children : List (String × String)
  blockdata : Option (String × String × Nat × Nat)
deriving DecidableEq, Repr

/-- SQLite comparison of a column against a bound parameter: an unbound
parameter is `NULL`, and `col = NULL` holds of no row. -/
def sql_eq_param (col : String) (p : Option String) : Bool :=
  match p with
  | some v => col == v
  | none => false

/-- `name_for_nsid` from `src/db/mod.rs`:
`SELECT name FROM name_nsid WHERE nsid = ? LIMIT 1` with the nsid bound. -/
def name_for_nsid (db : Db) (nsid : String) : Option String :=
  (db.name_nsid.find? (fun nn => nn.nsid == nsid)).map (fun nn => nn.name)

/-- Modelled from the spec: `src/db/queries/records.sql` is not under `src/`.
Per §4.5 the lookup returns the records of the given `nsid` (none when no
records event exists). -/
def records_for_nsid (db : Db) (nsid : String) :
    Option (List (String × String)) :=
  (db.records_events.find? (fun re => re.nsid == nsid)).map
    (fun re => re.records)

/-- Modelled from the spec: `src/db/queries/children.sql` is not under
`src/`.  Per §4.5 the children list comes from the create event's
`children` column ("currently always empty in validated rows"). -/
def children_for_nsid (db : Db) (nsid : String) : List (String × String) :=
  ((db.create_events.find? (fun ce => ce.nsid == nsid)).map
    (fun ce => ce.children)).getD []

/-- The query of `blockchain_data`, modelled from the spec since
`src/db/queries/blockchain_data.sql` is not under `src/`:
`(blockhash, txid, vout, height)` of the blockchain row whose `nsid` equals
the bound parameter. -/
def blockchain_data_query (db : Db) (p : Option String) :
    Option (String × String × Nat × Nat) :=
  (db.blockchain.find? (fun r => sql_eq_param r.nsid p)).map
    (fun r => (r.blockhash, r.txid, r.vout, r.height))

/-- `blockchain_data` from `src/db/mod.rs`: the Rust function takes `nsid`
but contains no `bind` call, so the query's parameter stays unbound
(`NULL`) whatever nsid the caller passes. -/
def blockchain_data (db : Db) (_nsid : String) :
    Option (String × String × Nat × Nat) :=
  blockchain_data_query db none

/-- `namespace::details` from `src/db/mod.rs`: the name from
`name_for_nsid`, the records map with `{}` (empty map) as default, the
children list, and `blockchain_data`. -/
def details (db : Db) (nsid : String) : NamespaceDetails :=
  { name := name_for_nsid db nsid
    records := (records_for_nsid db nsid).getD []
    children := children_for_nsid db nsid
    blockdata := blockchain_data db nsid }

/-! ## Scheduler (`src/subcommands/server.rs`) and indexer delay
(`src/config/cfg.rs`) -/

/-- One step of the supervisor loop in `src/subcommands/server.rs`. -/
inductive IndexerAction
  | indexBlockchain
  | indexCreateEvents
  | indexRecordsEvents
  | sleep (secs : Nat)
deriving DecidableEq, Repr

/-- The body of the `indexer` loop in `src/subcommands/server.rs`, as the
sequence of actions of one iteration: the three pipelines in order, then
`tokio::time::sleep(Duration::from_secs(30))` — the literal 30, not the
configured delay. -/
def indexer_tick : List IndexerAction :=
  [ IndexerAction.indexBlockchain
  , IndexerAction.indexCreateEvents
  , IndexerAction.indexRecordsEvents
  , IndexerAction.sleep 30 ]

/-- `Config::server_indexer_delay` from `src/config/cfg.rs`: the CLI value
(when the subcommand is `Server`), else the config-file value, else 30. -/
def server_indexer_delay (cliDelay fileDelay : Option Nat) : Nat :=
  match cliDelay with
  | some d => d
  | none => fileDelay.getD 30

/-! ## HTTP error wrapper and explorer handler
(`src/subcommands/server.rs`) -/

/-- `WebError` from `src/subcommands/server.rs`: the wrapped error's display
text and an optional status code. -/
structure WebError where
  msg : String
  status : Option Nat
deriving DecidableEq, Repr

/-- `WebError::not_found`: tag the error with status 404. -/
def WebError.not_found (msg : String) : WebError :=
  ⟨msg, some 404⟩

/-- The blanket `From<E> for WebError` impl: no status tag. -/
def webErrorFrom (msg : String) : WebError :=
  ⟨msg, none⟩

/-- `IntoResponse for WebError`: status `self.1.unwrap_or(500)` and body
`"Something went wrong: "` followed by the error's display text. -/
def WebError.intoResponse (e : WebError) : Nat × String :=
  (e.status.getD 500, "Something went wrong: " ++ e.msg)

/-- `NsidTemplate` from `src/subcommands/server.rs`. -/
structure NsidTemplate where
  name : String
  record_keys : List String
  records : List (String × String)
  children : List (String × String)
  blockhash : String
  txid : String
  vout : Nat
  height : Nat
deriving DecidableEq, Repr

/-- `From<NamespaceDetails> for NsidTemplate` in
`src/subcommands/server.rs`: `blockdata.unwrap_or_default()`,
`name.unwrap_or_default()`, and the record keys sorted. -/
def nsidTemplateFrom (d : NamespaceDetails) : NsidTemplate :=
  let bd := d.blockdata.getD ("", "", 0, 0)
  { name := d.name.getD ""
    record_keys := List.insertionSort (fun a b => a ≤ b) (d.records.map Prod.fst)
    records := d.records
    children := d.children
    blockhash := bd.1
    txid := bd.2.1
    vout := bd.2.2.1
    height := bd.2.2.2 }

/-- The decision logic of `explore_nsid` in `src/subcommands/server.rs` on
the fetched `NamespaceDetails`: 404 via `WebError::not_found` when the name
or the blockdata is missing, otherwise the rendered template. -/
def explore_nsid_logic (d : NamespaceDetails) :
    Except (Nat × String) NsidTemplate :=
  if d.name.isNone || d.blockdata.isNone then
    Except.error (WebError.intoResponse (WebError.not_found "NSID not found"))
  else
    Except.ok (nsidTemplateFrom d)

/-- `explore_nsid` from `src/subcommands/server.rs`: fetch the details for
the requested nsid, then decide. -/
def explore_nsid (db : Db) (nsid : String) :
    Except (Nat × String) NsidTemplate :=
  explore_nsid_logic (details db nsid)

/-! ## Concrete fixtures -/

/-- A store whose three event tables satisfy the spec's triple join for
`"alice"` while `name_nsid` is empty. -/
def dbC3 : Db :=
  { blockchain := [⟨"n1", "bh", "tx", 0, 5⟩]
    name_nsid := []
    create_events := [⟨"n1", "pk", 10, "ev1", "alice", []⟩]
    records_events := [⟨"n1", "pk", 11, "ev2", "alice", [("K", "v")]⟩] }

/-- A store holding a blockchain row for nsid `"aa"` and its name row. -/
def dbC7 : Db :=
  { blockchain := [⟨"aa", "bh", "tx", 1, 5⟩]
    name_nsid := [⟨"alice", "aa", "aa", none, "pk"⟩]
    create_events := []
    records_events := [] }

/-- A store produced by older code that had applied the first nine
migrations, recording versions 0 through 8. -/
def dbFileNine : DbFile :=
  ⟨List.range 9, MIGRATIONS.take 9⟩

/-! ## Helper lemmas -/

/-- Every member of a list of naturals is bounded by `foldr max 0`. -/
theorem le_foldr_max (l : List Nat) (x : Nat) (hx : x ∈ l) :
    x ≤ l.foldr max 0 := by
  induction l with
  | nil => cases hx
  | cons a t ih =>
    rcases List.mem_cons.mp hx with h | h
    · subst h; exact Nat.le_max_left _ _
    · exact le_trans (ih h) (Nat.le_max_right _ _)

/-! ## Claim C1 -/

/-- Claim C1 (code evidence): `insert_namespace` binds only
`(nsid, blockhash, txid, height)` — four parameters; calls differing only in
`vout` bind identical argument lists and the `vout` value appears in no bound
parameter, so no stored row can hold the caller's `vout`.  In the
spec-modelled insert the remaining part of the claim holds: with two rows
carrying the same nsid the first writer wins, and replaying the same insert
leaves the table identical. -/
theorem c1_insert_namespace_vout_unbound :
    insert_namespace_binds "aa" "bb" "cc" 7 100
        = insert_namespace_binds "aa" "bb" "cc" 8 100
    ∧ (insert_namespace_binds "aa" "bb" "cc" 7 100).length = 4
    ∧ SqlValue.i 7 ∉ insert_namespace_binds "aa" "bb" "cc" 7 100
    ∧ insert_namespace_spec
        (insert_namespace_spec [] ⟨"aa", "h1", "t1", 0, 5⟩)
        ⟨"aa", "h2", "t2", 1, 9⟩
        = [⟨"aa", "h1", "t1", 0, 5⟩]
    ∧ insert_namespace_spec
        (insert_namespace_spec [] ⟨"aa", "h1", "t1", 0, 5⟩)
        ⟨"aa", "h1", "t1", 0, 5⟩
        = [⟨"aa", "h1", "t1", 0, 5⟩] := by
  refine ⟨rfl, rfl, by decide, by decide, by decide⟩

/-! ## Claim C5 -/

/-- The eleven migration statements are pairwise distinct. -/
theorem migrations_nodup : MIGRATIONS.Nodup := by
  decide

/-- The migration loop on an enumerated tail none of whose statements was
executed before (and with pairwise distinct statements) succeeds, appending
the carried indices to `schema` and the statements to `applied`. -/
theorem runPending_fresh (l : List (Nat × String)) (st : DbFile)
    (hfresh : ∀ nm ∈ l, nm.2 ∉ st.applied)
    (hnodup : (l.map Prod.snd).Nodup) :
    runPending st l
      = (⟨st.schema ++ l.map Prod.fst, st.applied ++ l.map Prod.snd⟩, true) := by
  induction l generalizing st with
  | nil => simp [runPending]
  | cons nm rest ih =>
    obtain ⟨idx, m⟩ := nm
    have hm : m ∉ st.applied := hfresh (idx, m) (List.mem_cons_self _ _)
    simp only [List.map_cons] at hnodup ⊢
    rcases List.nodup_cons.mp hnodup with ⟨hmr, hnodup2⟩
    rw [show runPending st ((idx, m) :: rest)
          = if m ∈ st.applied then (st, false)
            else runPending ⟨st.schema ++ [idx], st.applied ++ [m]⟩ rest
        from rfl,
      if_neg hm,
      ih ⟨st.schema ++ [idx], st.applied ++ [m]⟩ ?hfresh2 hnodup2]
    · simp [List.append_assoc]
    case hfresh2 =>
      intro nm2 hnm2 hcon
      rcases List.mem_append.mp hcon with h | h
      · exact hfresh nm2 (List.mem_cons_of_mem _ hnm2) h
      · have h2 : nm2.2 ∈ List.map Prod.snd rest :=
          List.mem_map_of_mem Prod.snd hnm2
        rw [List.mem_singleton.mp h] at h2
        exact hmr h2

set_option maxRecDepth 8192 in
/-- Claim C5 (amended): `initialize` reads the highest applied version and
attempts exactly the migrations after it, in list order, recording the
tail-local indices `0, 1, …` rather than the global versions, with no
per-migration transaction; a failing statement aborts the run, keeping the
effects of the statements before it.  When every pending statement is fresh
the run succeeds and appends exactly the tail; in particular from an empty
store one run applies all eleven migrations and a second run finds nothing
pending and succeeds without change.  But when the first pending statement
was already executed — as on a store whose tail-local recorded indices did
not advance the maximum version — its re-execution errors and `initialize`
aborts with a migration error, leaving the database unchanged. -/
theorem c5_migrations_tail_applied :
    (∀ st : DbFile,
        (∀ m ∈ MIGRATIONS.drop (nextVersion st.schema), m ∉ st.applied) →
        applyMigrations st
          = (⟨st.schema
                ++ List.range (MIGRATIONS.drop (nextVersion st.schema)).length,
              st.applied ++ MIGRATIONS.drop (nextVersion st.schema)⟩, true))
    ∧ (∀ (st : DbFile) (m : String) (rest : List String),
        MIGRATIONS.drop (nextVersion st.schema) = m :: rest →
        m ∈ st.applied →
        applyMigrations st = (st, false))
    ∧ applyMigrations emptyDbFile = (⟨List.range 11, MIGRATIONS⟩, true)
    ∧ applyMigrations ⟨List.range 11, MIGRATIONS⟩
        = (⟨List.range 11, MIGRATIONS⟩, true) := by
  refine ⟨?_, ?_, by decide, by decide⟩
  · intro st hfresh
    unfold applyMigrations
    rw [runPending_fresh _ st ?fresh ?nodup, List.enum_map_fst, List.enum_map_snd]
    case fresh =>
      intro nm hnm
      apply hfresh
      rw [← List.enum_map_snd (MIGRATIONS.drop (nextVersion st.schema))]
      exact List.mem_map_of_mem Prod.snd hnm
    case nodup =>
      rw [List.enum_map_snd]
      exact migrations_nodup.sublist (List.drop_sublist _ _)
  · intro st m rest hdrop hm
    unfold applyMigrations
    rw [hdrop]
    show runPending st ((0, m) :: rest.enumFrom 1) = (st, false)
    rw [runPending, if_pos hm]

/-- Witness for C5: from the empty store every pending statement is fresh,
and the run succeeds appending the whole migration list. -/
theorem c5_witness :
    applyMigrations emptyDbFile
      = (⟨emptyDbFile.schema
            ++ List.range (MIGRATIONS.drop (nextVersion emptyDbFile.schema)).length,
          emptyDbFile.applied ++ MIGRATIONS.drop (nextVersion emptyDbFile.schema)⟩,
        true) :=
  c5_migrations_tail_applied.1 emptyDbFile (by decide)

set_option maxRecDepth 8192 in
/-- Claim C5 (counterexample): on a store whose recorded versions are
0 through 8 (nine migrations applied by an older binary), a run of
`initialize` executes the two pending view migrations but records the
tail-local versions 0 and 1, so the recorded maximum stays 8 — the highest
applied version is not tracked correctly — and the second run, instead of
applying the migrations after the highest recorded version as the claim
states (or cleanly applying none), fails: re-executing
`CREATE VIEW name_records_vw` errors and `initialize` aborts, leaving the
database unchanged but returning a fatal migration error, so the store
never starts cleanly again. -/
theorem c5_counterexample :
    (applyMigrations dbFileNine).2 = true
    ∧ (applyMigrations dbFileNine).1.schema = List.range 9 ++ [0, 1]
    ∧ (applyMigrations (applyMigrations dbFileNine).1).2 = false
    ∧ (applyMigrations (applyMigrations dbFileNine).1).1
        = (applyMigrations dbFileNine).1 := by
  decide

/-! ## Claim C6 -/

/-- Claim C6 (code evidence): the encoder's payload is 25 bytes but starts
with `IND\x00`, not `NOM\x00`; the blockchain scan rejects the encoder's own
output as well as a NOM-prefixed payload, while it accepts a gun-prefixed
25-byte sequence whose first four bytes differ from `NOM\x00` —
encode→decode is not the identity and the decoder's accepted set is
gun-prefixed, not NOM-prefixed. -/
theorem c6_op_return_magic_mismatch :
    (op_return (List.replicate 20 0) IndigoKind.create).length = 25
    ∧ (op_return (List.replicate 20 0) IndigoKind.create).take 4
        = [0x49, 0x4E, 0x44, 0x00]
    ∧ (spec_op_return (List.replicate 20 0) IndigoKind.create).take 4
        = [0x4E, 0x4F, 0x4D, 0x00]
    ∧ (op_return (List.replicate 20 0) IndigoKind.create).take 4
        ≠ (spec_op_return (List.replicate 20 0) IndigoKind.create).take 4
    ∧ indexer_decode (op_return (List.replicate 20 0) IndigoKind.create)
        = none
    ∧ indexer_decode (spec_op_return (List.replicate 20 0) IndigoKind.create)
        = none
    ∧ (gun_op_return (List.replicate 20 0)).length = 25
    ∧ (gun_op_return (List.replicate 20 0)).take 4 ≠ [0x4E, 0x4F, 0x4D, 0x00]
    ∧ indexer_decode (gun_op_return (List.replicate 20 0))
        = some (List.replicate 20 0) := by
  decide

/-! ## Claim C7 -/

/-- Claim C7 (code evidence): `blockchain_data` never binds its `nsid`
argument, so `namespace_details` returns `blockdata = none` even for an nsid
that has a blockchain row; the intended query with the parameter bound
would have found that row. -/
theorem c7_blockchain_data_nsid_unbound :
    (details dbC7 "aa").blockdata = none
    ∧ dbC7.blockchain.any (fun r => r.nsid == "aa") = true
    ∧ blockchain_data_query dbC7 (some "aa") = some ("bh", "tx", 1, 5)
    ∧ (details dbC7 "aa").name = some "alice" := by
  decide

/-! ## Claim C8 -/

/-- Claim C8 (code evidence): one iteration of the supervisor loop runs the
blockchain, create and records indexers in that order and then sleeps — but
the sleep is the literal 30 seconds; with `server.indexer_delay` configured
to 60 the accessor yields 60, yet no `sleep 60` occurs in the loop body. -/
theorem c8_indexer_loop_sleep_hardcoded :
    indexer_tick
        = [IndexerAction.indexBlockchain, IndexerAction.indexCreateEvents,
            IndexerAction.indexRecordsEvents, IndexerAction.sleep 30]
    ∧ server_indexer_delay (some 60) none = 60
    ∧ IndexerAction.sleep (server_indexer_delay (some 60) none) ∉ indexer_tick
    ∧ server_indexer_delay none none = 30 := by
  decide

/-! ## Claim C9 -/

/-- Claim C9: an untagged handler error becomes a 500 response whose body is
`"Something went wrong: "` followed by the error's display text, and a
`not_found`-tagged error becomes a 404 response with the same body shape —
the raw internal message is exposed on every 500 and 404 response. -/
theorem c9_web_error_exposes_message :
    ∀ msg : String,
      WebError.intoResponse (webErrorFrom msg)
          = (500, "Something went wrong: " ++ msg)
        ∧ WebError.intoResponse (WebError.not_found msg)
          = (404, "Something went wrong: " ++ msg) := by
  intro msg
  exact ⟨rfl, rfl⟩

/-! ## Claim C4 -/

/-- Claim C4: `next_index_height` is strictly greater than every stored
height (non-empty case: `max(height) + 1`), and on an empty store the
spec-modelled indexer start equals the network genesis height — 790500 on
Bitcoin mainnet, 143500 on Signet, 0 on the other networks. -/
theorem c4_next_index_height :
    (∀ (bc : List BlockchainRow), ∀ r ∈ bc, r.height < next_index_height bc)
    ∧ (∀ net, indexer_start_height [] net = starting_block_height net)
    ∧ starting_block_height Network.bitcoin = 790500
    ∧ starting_block_height Network.signet = 143500
    ∧ starting_block_height Network.testnet = 0
    ∧ starting_block_height Network.regtest = 0 := by
  refine ⟨?_, fun net => rfl, rfl, rfl, rfl, rfl⟩
  intro bc r hr
  have h1 : r.height ∈ bc.map (fun r => r.height) :=
    List.mem_map_of_mem _ hr
  have h2 := le_foldr_max _ _ h1
  unfold next_index_height
  omega

/-- Witness for C4 at a one-row store. -/
theorem c4_witness :
    (⟨"aa", "bh", "tx", 0, 7⟩ : BlockchainRow).height
      < next_index_height [⟨"aa", "bh", "tx", 0, 7⟩] :=
  c4_next_index_height.1 [⟨"aa", "bh", "tx", 0, 7⟩]
    ⟨"aa", "bh", "tx", 0, 7⟩ (by simp)

/-! ## Claim C10 -/

/-- Claim C10: `explore_nsid` answers 404 whenever the fetched details lack
the name or the blockdata, and whenever a template is rendered its name and
`(blockhash, txid, vout, height)` are exactly the stored `some`-values of
the details — the `unwrap_or_default` fallback never reaches a rendered
page. -/
theorem c10_explore_nsid_no_defaults :
    ∀ d : NamespaceDetails,
      ((d.name = none ∨ d.blockdata = none) →
        explore_nsid_logic d
          = Except.error (404, "Something went wrong: NSID not found"))
      ∧ (∀ t, explore_nsid_logic d = Except.ok t →
          d.name = some t.name
            ∧ d.blockdata = some (t.blockhash, t.txid, t.vout, t.height)) := by
  intro d
  constructor
  · intro h
    rcases h with h | h <;>
      simp [explore_nsid_logic, h, WebError.intoResponse, WebError.not_found]
  · intro t ht
    rcases hdn : d.name with _ | n
    · simp [explore_nsid_logic, hdn] at ht
    · rcases hdb : d.blockdata with _ | bd
      · simp [explore_nsid_logic, hdb] at ht
      · rcases bd with ⟨bh, tx, v, hh⟩
        simp [explore_nsid_logic, hdn, hdb] at ht
        subst ht
        simp [nsidTemplateFrom, hdn, hdb]

/-- Witness for C10: a details value missing everything yields the 404
response, and for a fully populated details value the rendered name is the
stored one. -/
theorem c10_witness :
    explore_nsid_logic ⟨none, [], [], none⟩
        = Except.error (404, "Something went wrong: NSID not found")
      ∧ (⟨some "alice", [], [], some ("bh", "tx", 1, 5)⟩ : NamespaceDetails).name
          = some (nsidTemplateFrom
              ⟨some "alice", [], [], some ("bh", "tx", 1, 5)⟩).name :=
  ⟨(c10_explore_nsid_no_defaults ⟨none, [], [], none⟩).1 (Or.inl rfl),
   ((c10_explore_nsid_no_defaults
        ⟨some "alice", [], [], some ("bh", "tx", 1, 5)⟩).2
      (nsidTemplateFrom ⟨some "alice", [], [], some ("bh", "tx", 1, 5)⟩)
      rfl).1⟩

/-! ## Claim C3 -/

/-- Claim C3 (counterexample): in `dbC3` the blockchain row, the create
event and the records event all exist and agree — the claim's triple join
holds for `"alice"` — yet `name_records` returns `none`, because the
source view additionally joins the `name_nsid` table, which is empty
here. -/
theorem c3_counterexample :
    specTripleJoinHas dbC3 "alice" = true
      ∧ name_records dbC3 "alice" = none := by
  decide

/-- Claim C3 (amended): `name_records` finds a row exactly when the
`name_records_vw` join is inhabited — which requires, besides the
blockchain row, the create event and the records event, a `name_nsid` row
`nn` with `nn.root` equal to the blockchain nsid, the records event being
matched on `(nn.nsid, nn.pubkey)` rather than on the create event's
pubkey. -/
theorem c3_name_records_iff_join :
    ∀ (db : Db) (name : String),
      (name_records db name).isSome ↔
        ∃ b ∈ db.blockchain, ∃ nn ∈ db.name_nsid,
          ∃ ce ∈ db.create_events, ∃ re ∈ db.records_events,
            nn.root = b.nsid ∧ ce.nsid = b.nsid ∧ re.nsid = nn.nsid
              ∧ re.pubkey = nn.pubkey ∧ re.name = name := by
  intro db name
  rw [name_records, Option.isSome_map', List.find?_isSome]
  constructor
  · rintro ⟨row, hmem, hname⟩
    simp only [name_records_vw, List.mem_flatMap, List.mem_filter,
      List.mem_map] at hmem
    rcases hmem with ⟨b, hb, nn, ⟨hnn, hroot⟩, _ce, ⟨hce, hcen⟩, re, ⟨hre, hrek⟩, hrow⟩
    subst hrow
    simp only [Bool.and_eq_true, beq_iff_eq] at hname hroot hcen hrek
    exact ⟨b, hb, nn, hnn, _ce, hce, re, hre, hroot, hcen,
      hrek.1, hrek.2, hname⟩
  · rintro ⟨b, hb, nn, hnn, ce, hce, re, hre, hroot, hcen, hren, hrep, hrname⟩
    refine ⟨(re.name, re.records, re.nsid), ?_, by simp [hrname]⟩
    simp only [name_records_vw, List.mem_flatMap, List.mem_filter,
      List.mem_map]
    exact ⟨b, hb, nn, ⟨hnn, by simp [hroot]⟩, ce, ⟨hce, by simp [hcen]⟩,
      re, ⟨hre, by simp [hren, hrep]⟩, rfl⟩

/-! ## Claim C2 -/

/-- Key matching unfolded to propositional equality of the two columns. -/
theorem recordsKeyMatches_iff (x : RecordsRow) (n p : String) :
    recordsKeyMatches x n p = true ↔ x.nsid = n ∧ x.pubkey = p := by
  simp [recordsKeyMatches]

/-- The conflict action never changes a row's `nsid`. -/
theorem upsertRow_nsid (r x : RecordsRow) : (upsertRow r x).nsid = x.nsid := by
  unfold upsertRow
  split
  next h =>
    have hk := ((recordsKeyMatches_iff x r.nsid r.pubkey).mp
      (Bool.and_eq_true _ _ ▸ h).1).1
    exact hk.symm
  next => rfl

/-- The conflict action never changes a row's `pubkey`. -/
theorem upsertRow_pubkey (r x : RecordsRow) :
    (upsertRow r x).pubkey = x.pubkey := by
  unfold upsertRow
  split
  next h =>
    have hk := ((recordsKeyMatches_iff x r.nsid r.pubkey).mp
      (Bool.and_eq_true _ _ ▸ h).1).2
    exact hk.symm
  next => rfl

/-- The conflict action preserves key matching. -/
theorem upsertRow_keyMatches (r x : RecordsRow) (n p : String) :
    recordsKeyMatches (upsertRow r x) n p = recordsKeyMatches x n p := by
  unfold recordsKeyMatches
  rw [upsertRow_nsid, upsertRow_pubkey]

/-- `find?` over the in-place update pass: for the conflicting key the found
row is combined with the incoming row by `pickNewer`; every other key is
untouched. -/
theorem find?_map_upsertRow (tbl : List RecordsRow) (r : RecordsRow)
    (n p : String) :
    (tbl.map (upsertRow r)).find? (fun x => recordsKeyMatches x n p)
      = if r.nsid = n ∧ r.pubkey = p then
          (tbl.find? (fun x => recordsKeyMatches x n p)).map
            (fun a => pickNewer a r)
        else tbl.find? (fun x => recordsKeyMatches x n p) := by
  induction tbl with
  | nil => by_cases hk : r.nsid = n ∧ r.pubkey = p <;> simp [hk]
  | cons x xs ih =>
    by_cases hx : recordsKeyMatches x n p = true
    · have hfx : recordsKeyMatches (upsertRow r x) n p = true := by
        rw [upsertRow_keyMatches]; exact hx
      rw [List.map_cons,
        @List.find?_cons_of_pos _ (fun x => recordsKeyMatches x n p)
          (upsertRow r x) (List.map (upsertRow r) xs) hfx,
        @List.find?_cons_of_pos _ (fun x => recordsKeyMatches x n p) x xs hx]
      by_cases hk : r.nsid = n ∧ r.pubkey = p
      · rw [if_pos hk]
        have hxr : recordsKeyMatches x r.nsid r.pubkey = true := by
          rcases (recordsKeyMatches_iff x n p).mp hx with ⟨h1, h2⟩
          exact (recordsKeyMatches_iff _ _ _).mpr
            ⟨h1.trans hk.1.symm, h2.trans hk.2.symm⟩
        simp [upsertRow, hxr, pickNewer]
      · rw [if_neg hk]
        have hxr : recordsKeyMatches x r.nsid r.pubkey = false := by
          cases hcase : recordsKeyMatches x r.nsid r.pubkey with
          | false => rfl
          | true =>
            exfalso
            rcases (recordsKeyMatches_iff _ _ _).mp hcase with ⟨h1, h2⟩
            rcases (recordsKeyMatches_iff _ _ _).mp hx with ⟨h3, h4⟩
            exact hk ⟨h1.symm.trans h3, h2.symm.trans h4⟩
        simp [upsertRow, hxr]
    · have hfx : ¬ recordsKeyMatches (upsertRow r x) n p = true := by
        rw [upsertRow_keyMatches]; exact hx
      rw [List.map_cons,
        @List.find?_cons_of_neg _ (fun x => recordsKeyMatches x n p)
          (upsertRow r x) (List.map (upsertRow r) xs) hfx,
        @List.find?_cons_of_neg _ (fun x => recordsKeyMatches x n p) x xs hx]
      exact ih

/-- `lookupRecords` over the upsert: the conflicting key is combined with
the incoming row via `pickNewer` (inserted fresh when absent); every other
key is untouched. -/
theorem lookupRecords_insert (tbl : List RecordsRow) (r : RecordsRow)
    (n p : String) :
    lookupRecords (insert_records_event tbl r) n p
      = if r.nsid = n ∧ r.pubkey = p then
          match lookupRecords tbl n p with
          | none => some r
          | some a => some (pickNewer a r)
        else lookupRecords tbl n p := by
  unfold insert_records_event lookupRecords
  by_cases hany : tbl.any (fun x => recordsKeyMatches x r.nsid r.pubkey) = true
  · rw [if_pos hany, find?_map_upsertRow]
    by_cases hk : r.nsid = n ∧ r.pubkey = p
    · rw [if_pos hk, if_pos hk]
      have hex : ∃ a, tbl.find? (fun x => recordsKeyMatches x n p) = some a := by
        rcases List.any_eq_true.mp hany with ⟨x, hxmem, hxp⟩
        refine Option.isSome_iff_exists.mp (List.find?_isSome.mpr ⟨x, hxmem, ?_⟩)
        rcases (recordsKeyMatches_iff _ _ _).mp hxp with ⟨h1, h2⟩
        exact (recordsKeyMatches_iff _ _ _).mpr ⟨h1.trans hk.1, h2.trans hk.2⟩
      rcases hex with ⟨a, ha⟩
      rw [ha]
      rfl
    · rw [if_neg hk, if_neg hk]
  · rw [if_neg hany, List.find?_append]
    by_cases hk : r.nsid = n ∧ r.pubkey = p
    · rw [if_pos hk]
      have hnone : tbl.find? (fun x => recordsKeyMatches x n p) = none := by
        rw [List.find?_eq_none]
        intro x hxmem hpx
        apply hany
        refine List.any_eq_true.mpr ⟨x, hxmem, ?_⟩
        rcases (recordsKeyMatches_iff _ _ _).mp hpx with ⟨h1, h2⟩
        exact (recordsKeyMatches_iff _ _ _).mpr
          ⟨h1.trans hk.1.symm, h2.trans hk.2.symm⟩
      have hr : recordsKeyMatches r n p = true :=
        (recordsKeyMatches_iff _ _ _).mpr hk
      rw [hnone,
        @List.find?_cons_of_pos _ (fun x => recordsKeyMatches x n p) r [] hr]
      rfl
    · rw [if_neg hk]
      have hr : ¬ recordsKeyMatches r n p = true := fun hcon =>
        hk ((recordsKeyMatches_iff _ _ _).mp hcon)
      rw [@List.find?_cons_of_neg _ (fun x => recordsKeyMatches x n p) r [] hr]
      simp

/-- Under unique keys, every member matching a key equals the row `find?`
returns for that key. -/
theorem lookup_eq_of_mem (tbl : List RecordsRow) (n p : String)
    (a x : RecordsRow) (hu : UniqueRecordsKeys tbl)
    (hfind : lookupRecords tbl n p = some a) (hx : x ∈ tbl)
    (hkx : recordsKeyMatches x n p = true) : x = a := by
  induction tbl with
  | nil => cases hx
  | cons y ys ih =>
    rcases List.pairwise_cons.mp hu with ⟨hy, hu2⟩
    by_cases hky : recordsKeyMatches y n p = true
    · rw [lookupRecords,
        @List.find?_cons_of_pos _ (fun z => recordsKeyMatches z n p) y ys hky]
        at hfind
      have hya : y = a := Option.some.inj hfind
      rcases List.mem_cons.mp hx with h | h
      · exact h.trans hya
      · exfalso
        apply hy x h
        rcases (recordsKeyMatches_iff _ _ _).mp hky with ⟨h1, h2⟩
        rcases (recordsKeyMatches_iff _ _ _).mp hkx with ⟨h3, h4⟩
        exact ⟨h1.trans h3.symm, h2.trans h4.symm⟩
    · rw [lookupRecords,
        @List.find?_cons_of_neg _ (fun z => recordsKeyMatches z n p) y ys hky]
        at hfind
      rcases List.mem_cons.mp hx with h | h
      · exact absurd (h ▸ hkx) hky
      · exact ih hu2 hfind h

/-- A map by a function fixing every member is the identity. -/
theorem map_eq_self_of_fix (l : List RecordsRow) (f : RecordsRow → RecordsRow)
    (h : ∀ x ∈ l, f x = x) : l.map f = l := by
  induction l with
  | nil => rfl
  | cons x xs ih =>
    rw [List.map_cons, h x (List.mem_cons_self _ _),
      ih (fun y hy => h y (List.mem_cons_of_mem _ hy))]

/-- The upsert preserves uniqueness of `(nsid, pubkey)` keys. -/
theorem insert_records_event_unique (tbl : List RecordsRow) (r : RecordsRow)
    (hu : UniqueRecordsKeys tbl) :
    UniqueRecordsKeys (insert_records_event tbl r) := by
  unfold insert_records_event
  by_cases hany : tbl.any (fun x => recordsKeyMatches x r.nsid r.pubkey) = true
  · rw [if_pos hany]
    unfold UniqueRecordsKeys at hu ⊢
    rw [List.pairwise_map]
    refine hu.imp ?_
    intro a b hab hcon
    apply hab
    rcases hcon with ⟨h1, h2⟩
    rw [upsertRow_nsid, upsertRow_nsid] at h1
    rw [upsertRow_pubkey, upsertRow_pubkey] at h2
    exact ⟨h1, h2⟩
  · rw [if_neg hany]
    unfold UniqueRecordsKeys
    rw [List.pairwise_append]
    refine ⟨hu, List.pairwise_singleton _ _, ?_⟩
    intro x hx y hy
    rcases List.mem_singleton.mp hy with rfl
    intro hcon
    apply hany
    exact List.any_eq_true.mpr
      ⟨x, hx, (recordsKeyMatches_iff _ _ _).mpr ⟨hcon.1, hcon.2⟩⟩

/-- An incoming event whose `created_at` does not strictly exceed the stored
row's leaves the table unchanged. -/
theorem insert_records_event_stale (tbl : List RecordsRow) (r a : RecordsRow)
    (hu : UniqueRecordsKeys tbl)
    (hfind : lookupRecords tbl r.nsid r.pubkey = some a)
    (hle : r.created_at ≤ a.created_at) :
    insert_records_event tbl r = tbl := by
  have hfind2 : List.find? (fun x => recordsKeyMatches x r.nsid r.pubkey) tbl
      = some a := hfind
  have ha_mem : a ∈ tbl := List.mem_of_find?_eq_some hfind2
  have ha_key : recordsKeyMatches a r.nsid r.pubkey = true :=
    @List.find?_some _ (fun x => recordsKeyMatches x r.nsid r.pubkey) a tbl
      hfind2
  have hany : tbl.any (fun x => recordsKeyMatches x r.nsid r.pubkey) = true :=
    List.any_eq_true.mpr ⟨a, ha_mem, ha_key⟩
  unfold insert_records_event
  rw [if_pos hany]
  apply map_eq_self_of_fix
  intro x hx
  unfold upsertRow
  by_cases hkx : recordsKeyMatches x r.nsid r.pubkey = true
  · have hxa : x = a := lookup_eq_of_mem tbl r.nsid r.pubkey a x hu hfind hx hkx
    subst hxa
    have hng : ¬ r.created_at > x.created_at := by omega
    simp [hkx, hng]
  · simp [hkx]

/-- An incoming event whose `created_at` strictly exceeds the stored row's
becomes the stored row. -/
theorem insert_records_event_newer (tbl : List RecordsRow) (r a : RecordsRow)
    (hfind : lookupRecords tbl r.nsid r.pubkey = some a)
    (hlt : a.created_at < r.created_at) :
    lookupRecords (insert_records_event tbl r) r.nsid r.pubkey = some r := by
  rw [lookupRecords_insert, if_pos ⟨rfl, rfl⟩, hfind]
  simp [pickNewer, hlt]

/-- `pickNewer` commutes on rows with distinct timestamps. -/
theorem pickNewer_comm (r1 r2 : RecordsRow)
    (h : r1.created_at ≠ r2.created_at) :
    pickNewer r1 r2 = pickNewer r2 r1 := by
  unfold pickNewer
  split_ifs <;> first | rfl | omega

/-- Folding two rows with distinct timestamps into a stored row is
order-independent. -/
theorem pickNewer_right_comm (a r1 r2 : RecordsRow)
    (h : r1.created_at ≠ r2.created_at) :
    pickNewer (pickNewer a r1) r2 = pickNewer (pickNewer a r2) r1 := by
  unfold pickNewer
  split_ifs <;> first | rfl | omega

/-- Two upserts with distinct timestamps on a shared key commute, observed
through every key lookup. -/
theorem insert_records_event_comm (tbl : List RecordsRow) (r1 r2 : RecordsRow)
    (h : r1.nsid = r2.nsid → r1.pubkey = r2.pubkey →
      r1.created_at ≠ r2.created_at) (n p : String) :
    lookupRecords (insert_records_event (insert_records_event tbl r1) r2) n p
      = lookupRecords (insert_records_event (insert_records_event tbl r2) r1)
          n p := by
  rw [lookupRecords_insert, lookupRecords_insert, lookupRecords_insert,
    lookupRecords_insert]
  by_cases h1 : r1.nsid = n ∧ r1.pubkey = p <;>
    by_cases h2 : r2.nsid = n ∧ r2.pubkey = p
  · have hca : r1.created_at ≠ r2.created_at :=
      h (h1.1.trans h2.1.symm) (h1.2.trans h2.2.symm)
    simp only [h1, h2, and_self, if_true]
    cases hfind : lookupRecords tbl n p with
    | none => simp [pickNewer_comm r1 r2 hca]
    | some a => simp [pickNewer_right_comm a r1 r2 hca]
  · simp only [h1, h2, and_self, if_true, if_false, if_neg h2, if_pos h1]
  · simp only [h1, h2, and_self, if_true, if_false, if_neg h1, if_pos h2]
  · simp only [if_neg h1, if_neg h2]

/-- Claim C2 (amended): the records upsert keeps at most one row per
`(nsid, pubkey)` key; an event with an older or equal `created_at` leaves
the table unchanged; a strictly newer event replaces the stored row; and
delivery order is irrelevant whenever two events on the same key carry
distinct `created_at` values (with equal timestamps the first delivery
wins). -/
theorem c2_insert_records_event_upsert :
    (∀ (tbl : List RecordsRow) (r : RecordsRow),
        UniqueRecordsKeys tbl → UniqueRecordsKeys (insert_records_event tbl r))
    ∧ (∀ (tbl : List RecordsRow) (r a : RecordsRow),
        UniqueRecordsKeys tbl →
        lookupRecords tbl r.nsid r.pubkey = some a →
        r.created_at ≤ a.created_at →
        insert_records_event tbl r = tbl)
    ∧ (∀ (tbl : List RecordsRow) (r a : RecordsRow),
        lookupRecords tbl r.nsid r.pubkey = some a →
        a.created_at < r.created_at →
        lookupRecords (insert_records_event tbl r) r.nsid r.pubkey = some r)
    ∧ (∀ (tbl : List RecordsRow) (r1 r2 : RecordsRow),
        (r1.nsid = r2.nsid → r1.pubkey = r2.pubkey →
          r1.created_at ≠ r2.created_at) →
        ∀ n p,
          lookupRecords
              (insert_records_event (insert_records_event tbl r1) r2) n p
            = lookupRecords
                (insert_records_event (insert_records_event tbl r2) r1) n p) :=
  ⟨insert_records_event_unique, insert_records_event_stale,
    insert_records_event_newer, insert_records_event_comm⟩

/-- Witness for C2: a concrete older event (created_at 7 against stored 9)
leaves the one-row table unchanged. -/
theorem c2_witness :
    insert_records_event [⟨"n", "p", 9, "e1", "alice", []⟩]
        ⟨"n", "p", 7, "e2", "alice", [("K", "x")]⟩
      = [⟨"n", "p", 9, "e1", "alice", []⟩] :=
  c2_insert_records_event_upsert.2.1 _ _ ⟨"n", "p", 9, "e1", "alice", []⟩
    (by simp [UniqueRecordsKeys]) (by decide) (by decide)

/-- Claim C2 (counterexample): two records events with the same
`(nsid, pubkey)` key and the same `created_at` but different contents do
not commute — delivered one way the stored row is the first event,
delivered the other way it is the second, so the final state is not
independent of delivery order. -/
theorem c2_counterexample :
    insert_records_event
        (insert_records_event [] ⟨"n", "p", 5, "e1", "alice", [("K", "a")]⟩)
        ⟨"n", "p", 5, "e2", "alice", [("K", "b")]⟩
      ≠ insert_records_event
          (insert_records_event [] ⟨"n", "p", 5, "e2", "alice", [("K", "b")]⟩)
          ⟨"n", "p", 5, "e1", "alice", [("K", "a")]⟩ := by
  decide

end Nomen
